import Mathlib

/-!
# Verification of the x11-gstreamer-viewer media-graph manager

Shallow embedding of `x11_gstreamer_viewer/core/gstreamer_manager.py`:
compositor tile layout switching, FPS/latency metrics sampling, overlay
visibility, view cycling and pipeline start / surface attachment.
-/

set_option autoImplicit false

namespace X11Viewer

/-- One compositor sink pad's tile properties (`xpos`, `ypos`, `width`,
`height`, `alpha`), as mutated by `_set_tiled_view`,
`_set_single_camera_view` and `_set_compositor_sink_properties`. -/
structure Tile where
  xpos : Int
  ypos : Int
  width : Int
  height : Int
  alpha : ℚ
deriving Repr, DecidableEq

/-- Map a function over a list together with the running index, starting
at `n`: models `for i, sink_pad in enumerate(self.compositor_sink_pads)`. -/
def mapIdxFrom (f : Nat → Tile → Tile) : Nat → List Tile → List Tile
  | _, [] => []
  | n, t :: ts => f n t :: mapIdxFrom f (n + 1) ts

theorem mapIdxFrom_length (f : Nat → Tile → Tile) (n : Nat) (ts : List Tile) :
    (mapIdxFrom f n ts).length = ts.length := by
  induction ts generalizing n with
  | nil => rfl
  | cons a ts ih => simp [mapIdxFrom, ih]

theorem get?_mapIdxFrom (f : Nat → Tile → Tile) (n : Nat) (ts : List Tile) (i : Nat) :
    (mapIdxFrom f n ts).get? i = (ts.get? i).map (f (n + i)) := by
  induction ts generalizing n i with
  | nil => simp [mapIdxFrom]
  | cons a ts ih =>
    cases i with
    | zero => simp [mapIdxFrom]
    | succ j =>
      simp only [mapIdxFrom, List.get?, ih (n + 1) j]
      have h : n + 1 + j = n + (j + 1) := by omega
      rw [h]

/-- The body of the loop of `GStreamerManager._set_tiled_view`: position
the `i`-th sink pad by the `if`/`elif` chain, then set width, height and
alpha. -/
def tiledTile (W H : Int) (i : Nat) (t : Tile) : Tile :=
  let t1 :=
    if i = 0 then { t with xpos := 0, ypos := 0 }
    else if i = 1 then { t with xpos := W, ypos := 0 }
    else if i = 2 then { t with xpos := 0, ypos := H }
    else if i = 3 then { t with xpos := W, ypos := H }
    else t
  { t1 with width := W, height := H, alpha := 1 }

/-- Embedding of `GStreamerManager._set_tiled_view`: apply `tiledTile` to every
compositor sink pad in order. -/
def setTiledView (W H : Int) (ts : List Tile) : List Tile :=
  mapIdxFrom (tiledTile W H) 0 ts

/-- The body of the loop of `GStreamerManager._set_single_camera_view`:
tile `k` becomes the full output canvas with alpha 1, every other tile
only gets its alpha set to 0. -/
def singleTile (k : Nat) (ow oh : Int) (i : Nat) (t : Tile) : Tile :=
  if i = k then { t with xpos := 0, ypos := 0, width := ow, height := oh, alpha := 1 }
  else { t with alpha := 0 }

/-- Embedding of `GStreamerManager._set_single_camera_view`. -/
def setSingleCameraView (k : Nat) (ow oh : Int) (ts : List Tile) : List Tile :=
  mapIdxFrom (singleTile k ow oh) 0 ts

/-- The grid cell the tiled layout assigns to slot `i`
(`(i%2 * W, i/2 * H)`, size `W x H`, alpha 1). -/
def gridCell (W H : Int) (i : Nat) : Tile :=
  ⟨(i : Int) % 2 * W, (i : Int) / 2 * H, W, H, 1⟩

theorem tiledTile_eq_gridCell (W H : Int) {i : Nat} (h : i < 4) (t : Tile) :
    tiledTile W H i t = gridCell W H i := by
  interval_cases i <;> simp [tiledTile, gridCell]

theorem get?_setTiledView (W H : Int) (ts : List Tile) (i : Nat) :
    (setTiledView W H ts).get? i = (ts.get? i).map (tiledTile W H i) := by
  simpa using get?_mapIdxFrom (tiledTile W H) 0 ts i

theorem get?_setSingleCameraView (k : Nat) (ow oh : Int) (ts : List Tile) (i : Nat) :
    (setSingleCameraView k ow oh ts).get? i = (ts.get? i).map (singleTile k ow oh i) := by
  simpa using get?_mapIdxFrom (singleTile k ow oh) 0 ts i

/-- Closed rectangle membership for a tile: the point `(x, y)` lies in
the half-open rectangle of the tile. -/
def inTile (t : Tile) (x y : Int) : Prop :=
  t.xpos ≤ x ∧ x < t.xpos + t.width ∧ t.ypos ≤ y ∧ y < t.ypos + t.height

/-- Two tiles overlap when their half-open rectangles intersect. -/
def tilesOverlap (a b : Tile) : Prop :=
  a.xpos < b.xpos + b.width ∧ b.xpos < a.xpos + a.width ∧
  a.ypos < b.ypos + b.height ∧ b.ypos < a.ypos + a.height

/-- C1: for every branch count from 1 to 4, `_set_tiled_view` assigns tile
`i` the position `(i%2 * video_width, i/2 * video_height)` with
`width = video_width`, `height = video_height` and `alpha = 1.0`; the
resulting tiles are pairwise non-overlapping, and with all four branches
they exactly cover the 2x2 grid canvas of `W x H` cells. -/
theorem tiled_view_grid_layout (W H : Int)
    (ts : List Tile) (hlen1 : 1 ≤ ts.length) (hlen4 : ts.length ≤ 4) :
    (∀ i, i < ts.length →
      (setTiledView W H ts).get? i =
        some ⟨(i : Int) % 2 * W, (i : Int) / 2 * H, W, H, 1⟩) ∧
    (∀ i j a b, i < ts.length → j < ts.length → i ≠ j →
      (setTiledView W H ts).get? i = some a →
      (setTiledView W H ts).get? j = some b →
      ¬ tilesOverlap a b) ∧
    (ts.length = 4 → ∀ x y : Int, 0 ≤ x → x < 2 * W → 0 ≤ y → y < 2 * H →
      ∃ i, ∃ a, (setTiledView W H ts).get? i = some a ∧ inTile a x y) := by
  have hchar : ∀ i, i < ts.length →
      (setTiledView W H ts).get? i =
        some ⟨(i : Int) % 2 * W, (i : Int) / 2 * H, W, H, 1⟩ := by
    intro i hi
    have hget : ts.get? i = some (ts.get ⟨i, hi⟩) := List.get?_eq_get hi
    rw [get?_setTiledView, hget, Option.map_some',
      tiledTile_eq_gridCell W H (by omega) (ts.get ⟨i, hi⟩)]
    rfl
  refine ⟨hchar, ?_, ?_⟩
  · intro i j a b hi hj hij ha hb
    rw [hchar i hi] at ha
    rw [hchar j hj] at hb
    obtain rfl : a = _ := by injection ha.symm
    obtain rfl : b = _ := by injection hb.symm
    have hi4 : i < 4 := by omega
    have hj4 : j < 4 := by omega
    intro hov
    obtain ⟨h1, h2, h3, h4⟩ := hov
    interval_cases i <;> interval_cases j <;> simp_all
  · intro h4 x y hx0 hx hy0 hy
    by_cases hxW : x < W
    · by_cases hyH : y < H
      · exact ⟨0, _, hchar 0 (by omega), by constructor <;> simp <;> omega⟩
      · exact ⟨2, _, hchar 2 (by omega), by constructor <;> simp <;> omega⟩
    · by_cases hyH : y < H
      · exact ⟨1, _, hchar 1 (by omega), by constructor <;> simp <;> omega⟩
      · exact ⟨3, _, hchar 3 (by omega), by constructor <;> simp <;> omega⟩

/-- C1 witness: with four tiles of arbitrary starting geometry, the tiled
layout puts tile 1 at `(W, 0)` with size `W x H` and alpha 1. -/
theorem tiled_view_grid_layout_w :
    (setTiledView 1920 1080 [⟨3, 4, 5, 6, 2⟩, ⟨7, 8, 9, 10, 0⟩]).get? 1 =
      some ⟨(1 : Int) % 2 * 1920, (1 : Int) / 2 * 1080, 1920, 1080, 1⟩ :=
  (tiled_view_grid_layout 1920 1080 [⟨3, 4, 5, 6, 2⟩, ⟨7, 8, 9, 10, 0⟩]
    (by decide) (by decide)).1 1 (by decide)

/-- C2: `_set_single_camera_view k` gives tile `k` the full output canvas
`(0, 0, 2W, 2H)` with alpha 1, sets only alpha (to 0) on every other
tile leaving its geometry unchanged, and afterwards exactly the selected
tile has alpha 1. -/
theorem single_camera_view_spec (W H : Int) (ts : List Tile) (k : Nat)
    (hk : k < ts.length) :
    ((setSingleCameraView k (2 * W) (2 * H) ts).get? k =
      some ⟨0, 0, 2 * W, 2 * H, 1⟩) ∧
    (∀ i, i ≠ k → ∀ t, ts.get? i = some t →
      (setSingleCameraView k (2 * W) (2 * H) ts).get? i =
        some { t with alpha := 0 }) ∧
    (∀ i a, (setSingleCameraView k (2 * W) (2 * H) ts).get? i = some a →
      (a.alpha = 1 ↔ i = k)) := by
  refine ⟨?_, ?_, ?_⟩
  · have hget : ts.get? k = some (ts.get ⟨k, hk⟩) := List.get?_eq_get hk
    rw [get?_setSingleCameraView, hget, Option.map_some']
    simp [singleTile]
  · intro i hik t ht
    rw [get?_setSingleCameraView, ht, Option.map_some']
    simp [singleTile, hik]
  · intro i a ha
    rw [get?_setSingleCameraView] at ha
    cases hts : ts.get? i with
    | none => rw [hts] at ha; simp at ha
    | some t =>
      rw [hts, Option.map_some'] at ha
      injection ha with ha
      subst ha
      by_cases hik : i = k <;> simp [singleTile, hik]

/-- C2 witness: switching to camera 0 among two tiles sets tile 0 to the
full canvas. -/
theorem single_camera_view_spec_w :
    (setSingleCameraView 0 (2 * 1920) (2 * 1080)
        [⟨3, 4, 5, 6, 2⟩, ⟨7, 8, 9, 10, 0⟩]).get? 0 =
      some ⟨0, 0, 2 * 1920, 2 * 1080, 1⟩ :=
  (single_camera_view_spec 1920 1080 [⟨3, 4, 5, 6, 2⟩, ⟨7, 8, 9, 10, 0⟩] 0
    (by decide)).1

/-- C3: from any starting tile state with at most four connected branches,
the switch sequence CAMERA_k, CAMERA_j, TILED, CAMERA_k produces exactly
the tile state of TILED followed directly by CAMERA_k. -/
theorem view_switch_sequence_equiv (W H : Int) (ts : List Tile) (k j : Nat)
    (_hk : k < ts.length) (_hj : j < ts.length) (hlen : ts.length ≤ 4) :
    setSingleCameraView k (2 * W) (2 * H)
      (setTiledView W H
        (setSingleCameraView j (2 * W) (2 * H)
          (setSingleCameraView k (2 * W) (2 * H) ts))) =
    setSingleCameraView k (2 * W) (2 * H) (setTiledView W H ts) := by
  apply List.ext_get?_iff.mpr
  intro n
  rw [get?_setSingleCameraView, get?_setTiledView, get?_setSingleCameraView,
    get?_setSingleCameraView, get?_setSingleCameraView, get?_setTiledView]
  cases hts : ts.get? n with
  | none => simp
  | some t =>
    have hn : n < ts.length := by
      by_contra h
      rw [List.get?_eq_none.mpr (by omega)] at hts
      exact absurd hts (by simp)
    simp only [Option.map_some']
    rw [tiledTile_eq_gridCell W H (by omega),
      tiledTile_eq_gridCell W H (by omega)]

/-- C3 witness: a concrete two-tile state with `k = 0`, `j = 1`. -/
theorem view_switch_sequence_equiv_w :
    setSingleCameraView 0 (2 * 10) (2 * 20)
      (setTiledView 10 20
        (setSingleCameraView 1 (2 * 10) (2 * 20)
          (setSingleCameraView 0 (2 * 10) (2 * 20)
            [⟨3, 4, 5, 6, 2⟩, ⟨7, 8, 9, 10, 0⟩]))) =
    setSingleCameraView 0 (2 * 10) (2 * 20)
      (setTiledView 10 20 [⟨3, 4, 5, 6, 2⟩, ⟨7, 8, 9, 10, 0⟩]) :=
  view_switch_sequence_equiv 10 20 [⟨3, 4, 5, 6, 2⟩, ⟨7, 8, 9, 10, 0⟩] 0 1
    (by decide) (by decide) (by decide)

/-! ## Metrics and overlay state machine -/

/-- The value last written to a branch's `textoverlay` "text" property.
`formatted fps latency` stands for the string
`f"{fps:.1f} FPS | {latency:.1f}ms"`; the construction-time default
`"0.0 FPS | 0.0ms"` is exactly the rendering of `formatted 0 0`. -/
inductive OverlayText where
  | empty
  | formatted (fps latency : ℚ)
deriving Repr, DecidableEq

/-- The mutable fields of `GStreamerManager` that the overlay and
metrics operations touch. Per-branch dictionaries keyed 0..3 become
functions on `Fin 4`. -/
structure MgrState where
  videoWidth : Int
  videoHeight : Int
  currentView : Int
  pads : List Tile
  hasOverlay : Fin 4 → Bool
  overlayText : Fin 4 → OverlayText
  fpsValues : Fin 4 → ℚ
  frameCounts : Fin 4 → Nat
  lastUpdate : Fin 4 → ℚ
  latencyBuf : Fin 4 → List ℚ
  latencyValues : Fin 4 → ℚ
  overlayVisible : Bool
  timerPending : Bool

/-- Append a latency sample and evict the oldest entry once the buffer
exceeds 10 entries (`append` then `pop(0)`). -/
def pushSample (buf : List ℚ) (v : ℚ) : List ℚ :=
  if 10 < (buf ++ [v]).length then (buf ++ [v]).tail else buf ++ [v]

/-- Push one latency measurement for branch `i` and, when the updated
buffer is non-empty, recompute the stored average, as in the body of
`_fps_probe_callback`. -/
def pushLatency (s : MgrState) (i : Fin 4) (v : ℚ) : MgrState :=
  if 0 < (pushSample (s.latencyBuf i) v).length then
    { s with
      latencyBuf := Function.update s.latencyBuf i (pushSample (s.latencyBuf i) v),
      latencyValues := Function.update s.latencyValues i
        ((pushSample (s.latencyBuf i) v).sum /
          ((pushSample (s.latencyBuf i) v).length : ℚ)) }
  else
    { s with latencyBuf := Function.update s.latencyBuf i (pushSample (s.latencyBuf i) v) }

/-- Embedding of `GStreamerManager._update_fps_display`: rewrite branch `i`'s overlay
text from the current fps/latency values, gated on visibility; no-op when
the branch has no overlay element. -/
def updateFpsDisplay (s : MgrState) (i : Fin 4) : MgrState :=
  if s.hasOverlay i then
    { s with
      overlayText := Function.update s.overlayText i
        (if s.overlayVisible then
          OverlayText.formatted (s.fpsValues i) (s.latencyValues i)
         else OverlayText.empty) }
  else s

/-- The inputs a single probe invocation reads from the environment:
wall-clock time, the buffer (with its optional PTS), pipeline presence,
the pipeline clock reading, and the pipeline base time. Times in the
clock domain are nanoseconds. -/
structure ProbeInput where
  now : ℚ
  buffer : Option (Option Int)
  pipelinePresent : Bool
  clock : Option Int
  baseTime : Int

/-- Possible pad-probe return values of the underlying framework. -/
inductive GstPadProbeReturn where
  | drop
  | ok
  | remove
  | pass
  | handled
deriving Repr, DecidableEq

/-- The latency-measurement section of `_fps_probe_callback`: when the
buffer exists and carries a PTS and the pipeline and its clock are
available, push the clock-relative latency (only when strictly positive);
when the PTS or the pipeline is missing, push the estimated frame
interval instead; when there is no buffer, or the clock is unavailable,
do nothing. -/
def latencyPart (s : MgrState) (i : Fin 4) (inp : ProbeInput) : MgrState :=
  match inp.buffer with
  | none => s
  | some pts =>
    match pts, inp.pipelinePresent with
    | some p, true =>
      match inp.clock with
      | some ct =>
        let latNs : Int := (ct - inp.baseTime) - p
        if 0 < latNs then pushLatency s i ((latNs : ℚ) / 1000000) else s
      | none => s
    | _, _ =>
      pushLatency s i (1000 / max (s.fpsValues i) 1)

/-- The state mutations of the FPS-refresh branch before the display
update: `fps_values[i] = frame_count/elapsed`, `frame_counts[i] = 0`,
`last_update[i] = now`. -/
def refreshState (s : MgrState) (i : Fin 4) (now : ℚ) : MgrState :=
  { s with
    fpsValues := Function.update s.fpsValues i
      ((s.frameCounts i : ℚ) / (now - s.lastUpdate i)),
    frameCounts := Function.update s.frameCounts i 0,
    lastUpdate := Function.update s.lastUpdate i now }

/-- The FPS-recomputation section of `_fps_probe_callback`: once at least
one second has elapsed since the last update, recompute fps from the
frame count, reset the count, stamp the update time and refresh the
overlay text. -/
def fpsPart (s : MgrState) (i : Fin 4) (now : ℚ) : MgrState :=
  if 1 ≤ now - s.lastUpdate i then
    if 0 < now - s.lastUpdate i then updateFpsDisplay (refreshState s i now) i
    else s
  else s

/-- Frame counting followed by the latency section: the state of the
probe callback just before its FPS-refresh check. -/
def probeMid (s : MgrState) (i : Fin 4) (inp : ProbeInput) : MgrState :=
  latencyPart
    { s with frameCounts := Function.update s.frameCounts i (s.frameCounts i + 1) } i inp

/-- Embedding of `GStreamerManager._fps_probe_callback` for branch `i`: count the
frame, run the latency section, run the FPS section, and return
`Gst.PadProbeReturn.OK`. -/
def probeStep (s : MgrState) (i : Fin 4) (inp : ProbeInput) :
    MgrState × GstPadProbeReturn :=
  (fpsPart (probeMid s i inp) i inp.now, GstPadProbeReturn.ok)

/-- Update all overlays (`for camera_index in self.fps_overlays.keys()`). -/
def updateAllDisplays (s : MgrState) : MgrState :=
  (List.finRange 4).foldl updateFpsDisplay s

/-- Embedding of `GStreamerManager.show_fps_overlay`: cancel the hide timer, set the
visible flag, refresh every overlay. -/
def showFpsOverlay (s : MgrState) : MgrState :=
  updateAllDisplays { s with timerPending := false, overlayVisible := true }

/-- Embedding of `GStreamerManager.hide_fps_overlay`: cancel the hide timer, clear the
visible flag, blank every overlay's text. -/
def hideFpsOverlay (s : MgrState) : MgrState :=
  { s with
    timerPending := false, overlayVisible := false,
    overlayText := fun i =>
      if s.hasOverlay i then OverlayText.empty else s.overlayText i }

/-- Embedding of `GStreamerManager.on_mouse_activity`: show the overlay, then schedule
the auto-hide timer. -/
def onMouseActivity (s : MgrState) : MgrState :=
  { showFpsOverlay s with timerPending := true }

/-- The state produced by `create_pipeline`: view reset to tiled, pads
rebuilt with the tiled geometry, metrics reset; each branch whose text
overlay was created gets the default text `"0.0 FPS | 0.0ms"` and its
FPS last-update stamp set to the build time `t0` by
`_setup_fps_measurement`. The visibility flag and hide timer are carried
over unchanged. -/
def createPipeline (s : MgrState) (has : Fin 4 → Bool) (t0 : ℚ) : MgrState :=
  { s with
    currentView := -1
    pads := setTiledView s.videoWidth s.videoHeight
      [⟨0, 0, 0, 0, 0⟩, ⟨0, 0, 0, 0, 0⟩, ⟨0, 0, 0, 0, 0⟩, ⟨0, 0, 0, 0, 0⟩]
    hasOverlay := has
    overlayText := fun i => if has i then OverlayText.formatted 0 0 else OverlayText.empty
    fpsValues := fun _ => 0
    frameCounts := fun _ => 0
    lastUpdate := fun i => if has i then t0 else 0
    latencyBuf := fun _ => []
    latencyValues := fun _ => 0 }

/-- The manager right after `__init__` (before any pipeline exists). -/
def initMgr (W H : Int) : MgrState :=
  { videoWidth := W
    videoHeight := H
    currentView := -1
    pads := []
    hasOverlay := fun _ => false
    overlayText := fun _ => OverlayText.empty
    fpsValues := fun _ => 0
    frameCounts := fun _ => 0
    lastUpdate := fun _ => 0
    latencyBuf := fun _ => []
    latencyValues := fun _ => 0
    overlayVisible := false
    timerPending := false }

/-- The overlay/metrics operations a run may interleave. `timerFire` is
the expiry of the auto-hide timer, which invokes `hide_fps_overlay`. -/
inductive Op where
  | probe (i : Fin 4) (inp : ProbeInput)
  | showOverlay
  | hideOverlay
  | mouseActivity
  | timerFire
  | construct (has : Fin 4 → Bool) (t0 : ℚ)

/-- Apply one operation to the manager state. -/
def applyOp (s : MgrState) : Op → MgrState
  | Op.probe i inp => (probeStep s i inp).1
  | Op.showOverlay => showFpsOverlay s
  | Op.hideOverlay => hideFpsOverlay s
  | Op.mouseActivity => onMouseActivity s
  | Op.timerFire => hideFpsOverlay s
  | Op.construct has t0 => createPipeline s has t0

/-- Run a sequence of operations. -/
def runOps (s : MgrState) (ops : List Op) : MgrState :=
  ops.foldl applyOp s

/-- A state reachable by building a pipeline on a fresh manager and then
applying any sequence of overlay/metrics operations. -/
def reachFrom (W H : Int) (has : Fin 4 → Bool) (t0 : ℚ) (ops : List Op) : MgrState :=
  runOps (createPipeline (initMgr W H) has t0) ops

/-! ## Auxiliary lemmas about the metrics state machine -/

theorem pushSample_length_pos (buf : List ℚ) (v : ℚ) :
    0 < (pushSample buf v).length := by
  unfold pushSample
  split
  · next h =>
    simp only [List.length_tail, List.length_append, List.length_singleton] at h ⊢
    omega
  · simp

theorem pushSample_length_le (buf : List ℚ) (v : ℚ) (h : buf.length ≤ 10) :
    (pushSample buf v).length ≤ 10 := by
  unfold pushSample
  split
  · next hgt =>
    simp only [List.length_tail, List.length_append, List.length_singleton]
    omega
  · next hle =>
    simp only [List.length_append, List.length_singleton] at hle ⊢
    omega

theorem pushSample_of_full (buf : List ℚ) (v : ℚ) (h : buf.length = 10) :
    pushSample buf v = buf.tail ++ [v] := by
  unfold pushSample
  rw [if_pos (by simp [h])]
  cases buf with
  | nil => simp at h
  | cons a l => simp

theorem pushLatency_latencyBuf (s : MgrState) (i : Fin 4) (v : ℚ) :
    (pushLatency s i v).latencyBuf =
      Function.update s.latencyBuf i (pushSample (s.latencyBuf i) v) := by
  unfold pushLatency
  split <;> rfl

theorem pushLatency_latencyValues (s : MgrState) (i : Fin 4) (v : ℚ) :
    (pushLatency s i v).latencyValues =
      Function.update s.latencyValues i
        ((pushSample (s.latencyBuf i) v).sum /
          ((pushSample (s.latencyBuf i) v).length : ℚ)) := by
  unfold pushLatency
  rw [if_pos (pushSample_length_pos _ _)]

theorem pushLatency_same (s : MgrState) (i : Fin 4) (v : ℚ) :
    (pushLatency s i v).overlayText = s.overlayText ∧
    (pushLatency s i v).hasOverlay = s.hasOverlay ∧
    (pushLatency s i v).overlayVisible = s.overlayVisible ∧
    (pushLatency s i v).fpsValues = s.fpsValues ∧
    (pushLatency s i v).frameCounts = s.frameCounts ∧
    (pushLatency s i v).lastUpdate = s.lastUpdate := by
  unfold pushLatency
  split <;> exact ⟨rfl, rfl, rfl, rfl, rfl, rfl⟩

theorem latencyPart_same_fields (s : MgrState) (i : Fin 4) (inp : ProbeInput) :
    (latencyPart s i inp).overlayText = s.overlayText ∧
    (latencyPart s i inp).hasOverlay = s.hasOverlay ∧
    (latencyPart s i inp).overlayVisible = s.overlayVisible ∧
    (latencyPart s i inp).fpsValues = s.fpsValues ∧
    (latencyPart s i inp).frameCounts = s.frameCounts ∧
    (latencyPart s i inp).lastUpdate = s.lastUpdate := by
  unfold latencyPart
  rcases inp.buffer with _ | (_ | p)
  · exact ⟨rfl, rfl, rfl, rfl, rfl, rfl⟩
  · exact pushLatency_same s i _
  · cases inp.pipelinePresent
    · exact pushLatency_same s i _
    · rcases inp.clock with _ | ct
      · exact ⟨rfl, rfl, rfl, rfl, rfl, rfl⟩
      · dsimp only
        split
        · exact pushLatency_same s i _
        · exact ⟨rfl, rfl, rfl, rfl, rfl, rfl⟩

/-- The text `_update_fps_display` writes when the branch has an overlay:
the formatted fps/latency pair when visible, the empty string otherwise. -/
def displayText (s : MgrState) (i : Fin 4) : OverlayText :=
  if s.overlayVisible then OverlayText.formatted (s.fpsValues i) (s.latencyValues i)
  else OverlayText.empty

/-- Overlay-text table after `_update_fps_display` on branch `i`. -/
def textAfterUpdate (s : MgrState) (i : Fin 4) (j : Fin 4) : OverlayText :=
  if j = i ∧ s.hasOverlay i = true then displayText s i else s.overlayText j

/-- Overlay-text table after updating every branch's display. -/
def textAfterUpdateAll (s : MgrState) (j : Fin 4) : OverlayText :=
  if s.hasOverlay j = true then displayText s j else s.overlayText j

theorem updateFpsDisplay_eq (s : MgrState) (i : Fin 4) :
    updateFpsDisplay s i = { s with overlayText := textAfterUpdate s i } := by
  unfold updateFpsDisplay
  split
  · next h =>
    congr 1
    funext j
    unfold textAfterUpdate displayText
    by_cases hji : j = i
    · subst hji
      simp [Function.update_same, h]
    · simp [Function.update_noteq hji, hji]
  · next h =>
    have hT : textAfterUpdate s i = s.overlayText := by
      funext j
      unfold textAfterUpdate
      rw [if_neg]
      simp [h]
    rw [hT]

theorem updateAllDisplays_eq (s : MgrState) :
    updateAllDisplays s = { s with overlayText := textAfterUpdateAll s } := by
  have h4 : List.finRange 4 = [0, 1, 2, 3] := by decide
  rw [updateAllDisplays, h4]
  simp only [List.foldl]
  rw [updateFpsDisplay_eq, updateFpsDisplay_eq, updateFpsDisplay_eq, updateFpsDisplay_eq]
  congr 1
  funext j
  unfold textAfterUpdate textAfterUpdateAll displayText
  fin_cases j <;> simp

/-! ## Invariants of the metrics state machine -/

/-- The latency buffer of every branch stays within 10 entries, and the
stored latency value is the arithmetic mean of the buffer whenever the
buffer is non-empty. -/
def LatencyInv (s : MgrState) : Prop :=
  ∀ i : Fin 4, (s.latencyBuf i).length ≤ 10 ∧
    (s.latencyBuf i ≠ [] →
      s.latencyValues i = (s.latencyBuf i).sum / ((s.latencyBuf i).length : ℚ))

theorem latencyInv_pushLatency (s : MgrState) (i : Fin 4) (v : ℚ)
    (h : LatencyInv s) : LatencyInv (pushLatency s i v) := by
  intro j
  rw [pushLatency_latencyBuf, pushLatency_latencyValues]
  by_cases hj : j = i
  · subst hj
    refine ⟨?_, fun _ => ?_⟩
    · rw [Function.update_same]
      exact pushSample_length_le _ _ (h j).1
    · rw [Function.update_same, Function.update_same]
  · rw [Function.update_noteq hj, Function.update_noteq hj]
    exact h j

theorem latencyInv_updateFpsDisplay (s : MgrState) (i : Fin 4)
    (h : LatencyInv s) : LatencyInv (updateFpsDisplay s i) := by
  unfold updateFpsDisplay
  split
  · exact h
  · exact h

theorem latencyInv_latencyPart (s : MgrState) (i : Fin 4) (inp : ProbeInput)
    (h : LatencyInv s) : LatencyInv (latencyPart s i inp) := by
  unfold latencyPart
  rcases inp.buffer with _ | (_ | p)
  · exact h
  · exact latencyInv_pushLatency s i _ h
  · cases inp.pipelinePresent
    · exact latencyInv_pushLatency s i _ h
    · rcases inp.clock with _ | ct
      · exact h
      · dsimp only
        split
        · exact latencyInv_pushLatency s i _ h
        · exact h

theorem latencyInv_fpsPart (s : MgrState) (i : Fin 4) (now : ℚ)
    (h : LatencyInv s) : LatencyInv (fpsPart s i now) := by
  unfold fpsPart
  split
  · split
    · exact latencyInv_updateFpsDisplay _ i h
    · exact h
  · exact h

theorem latencyInv_applyOp (s : MgrState) (op : Op)
    (h : LatencyInv s) : LatencyInv (applyOp s op) := by
  cases op with
  | probe i inp =>
    exact latencyInv_fpsPart _ i _ (latencyInv_latencyPart _ i inp h)
  | showOverlay =>
    unfold applyOp showFpsOverlay
    rw [updateAllDisplays_eq]
    exact h
  | hideOverlay => exact h
  | mouseActivity =>
    unfold applyOp onMouseActivity showFpsOverlay
    rw [updateAllDisplays_eq]
    exact h
  | timerFire => exact h
  | construct has t0 =>
    intro j
    exact ⟨by simp [applyOp, createPipeline], by simp [applyOp, createPipeline]⟩

theorem latencyInv_runOps (s : MgrState) (ops : List Op)
    (h : LatencyInv s) : LatencyInv (runOps s ops) := by
  induction ops generalizing s with
  | nil => exact h
  | cons op ops ih => exact ih (applyOp s op) (latencyInv_applyOp s op h)

/-- Overlay text discipline actually maintained by the code: with the
overlay hidden the text is blank or still the construction-time
placeholder (which renders as `"0.0 FPS | 0.0ms"`); with the overlay
shown the text carries the branch's current fps value together with the
latency value of the most recent display refresh. -/
def OverlayInv (s : MgrState) : Prop :=
  ∀ i : Fin 4, s.hasOverlay i = true →
    (s.overlayVisible = false →
      s.overlayText i = OverlayText.empty ∨
      s.overlayText i = OverlayText.formatted 0 0) ∧
    (s.overlayVisible = true →
      ∃ l : ℚ, s.overlayText i = OverlayText.formatted (s.fpsValues i) l)

theorem overlayInv_show (s : MgrState) : OverlayInv (showFpsOverlay s) := by
  unfold showFpsOverlay
  rw [updateAllDisplays_eq]
  intro i hov
  replace hov : s.hasOverlay i = true := hov
  refine ⟨fun hvis => absurd hvis (by simp), fun _ => ⟨s.latencyValues i, ?_⟩⟩
  show textAfterUpdateAll _ i = _
  unfold textAfterUpdateAll displayText
  simp [hov]

theorem overlayInv_hide (s : MgrState) : OverlayInv (hideFpsOverlay s) := by
  intro i hov
  replace hov : s.hasOverlay i = true := hov
  refine ⟨fun _ => Or.inl ?_, fun hvis => Bool.noConfusion hvis⟩
  show (if s.hasOverlay i then OverlayText.empty else s.overlayText i) = _
  rw [if_pos hov]

theorem overlayInv_construct (s : MgrState) (has : Fin 4 → Bool) (t0 : ℚ) :
    OverlayInv (createPipeline s has t0) := by
  intro i hov
  replace hov : has i = true := hov
  constructor
  · intro _
    right
    show (if has i then OverlayText.formatted 0 0 else OverlayText.empty) = _
    rw [if_pos hov]
  · intro _
    refine ⟨0, ?_⟩
    show (if has i then OverlayText.formatted 0 0 else OverlayText.empty) =
      OverlayText.formatted ((fun _ : Fin 4 => (0 : ℚ)) i) 0
    rw [if_pos hov]

theorem overlayInv_latencyPart (s : MgrState) (i : Fin 4) (inp : ProbeInput)
    (h : OverlayInv s) : OverlayInv (latencyPart s i inp) := by
  obtain ⟨hT, hH, hV, hF, _, _⟩ := latencyPart_same_fields s i inp
  intro j hov
  rw [hH] at hov
  rw [hT, hV, hF]
  exact h j hov

theorem overlayInv_fpsPart (s : MgrState) (i : Fin 4) (now : ℚ)
    (h : OverlayInv s) : OverlayInv (fpsPart s i now) := by
  unfold fpsPart
  split
  · split
    · rw [updateFpsDisplay_eq]
      intro j hov
      replace hov : s.hasOverlay j = true := hov
      by_cases hji : j = i
      · subst hji
        constructor
        · intro hvis
          replace hvis : s.overlayVisible = false := hvis
          left
          show textAfterUpdate _ j j = _
          unfold textAfterUpdate displayText refreshState
          simp [hov, hvis]
        · intro hvis
          replace hvis : s.overlayVisible = true := hvis
          refine ⟨s.latencyValues j, ?_⟩
          show textAfterUpdate _ j j =
            OverlayText.formatted (Function.update s.fpsValues j
              ((s.frameCounts j : ℚ) / (now - s.lastUpdate j)) j) _
          unfold textAfterUpdate displayText refreshState
          simp [hov, hvis]
      · constructor
        · intro hvis
          replace hvis : s.overlayVisible = false := hvis
          show textAfterUpdate _ i j = _ ∨ textAfterUpdate _ i j = _
          unfold textAfterUpdate
          rw [if_neg (by simp [hji])]
          exact (h j hov).1 hvis
        · intro hvis
          replace hvis : s.overlayVisible = true := hvis
          show ∃ l, textAfterUpdate _ i j =
            OverlayText.formatted (Function.update s.fpsValues i
              ((s.frameCounts i : ℚ) / (now - s.lastUpdate i)) j) l
          unfold textAfterUpdate
          rw [if_neg (by simp [hji]), Function.update_noteq hji]
          exact (h j hov).2 hvis
    · exact h
  · exact h

theorem overlayInv_applyOp (s : MgrState) (op : Op)
    (h : OverlayInv s) : OverlayInv (applyOp s op) := by
  cases op with
  | probe i inp =>
    exact overlayInv_fpsPart _ i _ (overlayInv_latencyPart _ i inp h)
  | showOverlay => exact overlayInv_show s
  | hideOverlay => exact overlayInv_hide s
  | mouseActivity => exact overlayInv_show s
  | timerFire => exact overlayInv_hide s
  | construct has t0 => exact overlayInv_construct s has t0

theorem overlayInv_runOps (s : MgrState) (ops : List Op)
    (h : OverlayInv s) : OverlayInv (runOps s ops) := by
  induction ops generalizing s with
  | nil => exact h
  | cons op ops ih => exact ih (applyOp s op) (overlayInv_applyOp s op h)

theorem fpsPart_latencyBuf (s : MgrState) (i : Fin 4) (now : ℚ) :
    (fpsPart s i now).latencyBuf = s.latencyBuf := by
  unfold fpsPart updateFpsDisplay refreshState
  split
  · split
    · split <;> rfl
    · rfl
  · rfl

theorem fpsPart_latencyValues (s : MgrState) (i : Fin 4) (now : ℚ) :
    (fpsPart s i now).latencyValues = s.latencyValues := by
  unfold fpsPart updateFpsDisplay refreshState
  split
  · split
    · split <;> rfl
    · rfl
  · rfl

/-- With a buffer carrying a PTS, a pipeline and a clock, and a strictly
positive clock-relative latency, the latency section pushes that latency
converted to milliseconds. -/
theorem latencyPart_push_pos (s : MgrState) (i : Fin 4) (inp : ProbeInput)
    (p ct : Int) (hb : inp.buffer = some (some p))
    (hp : inp.pipelinePresent = true) (hc : inp.clock = some ct)
    (hpos : 0 < ct - inp.baseTime - p) :
    latencyPart s i inp =
      pushLatency s i (((ct - inp.baseTime - p : Int) : ℚ) / 1000000) := by
  obtain ⟨now, buffer, pp, ck, bt⟩ := inp
  dsimp only at hb hp hc hpos ⊢
  subst hb
  subst hp
  subst hc
  unfold latencyPart
  dsimp only
  rw [if_pos hpos]

/-- With a buffer carrying a PTS, a pipeline and a clock, a non-positive
clock-relative latency is discarded: the latency section is a no-op. -/
theorem latencyPart_push_nonpos (s : MgrState) (i : Fin 4) (inp : ProbeInput)
    (p ct : Int) (hb : inp.buffer = some (some p))
    (hp : inp.pipelinePresent = true) (hc : inp.clock = some ct)
    (hneg : ct - inp.baseTime - p ≤ 0) :
    latencyPart s i inp = s := by
  obtain ⟨now, buffer, pp, ck, bt⟩ := inp
  dsimp only at hb hp hc hneg ⊢
  subst hb
  subst hp
  subst hc
  unfold latencyPart
  dsimp only
  rw [if_neg (not_lt.mpr hneg)]

/-- Below the one-second threshold, the probe callback only counts the
frame and samples latency. -/
theorem probeStep_no_refresh (s : MgrState) (i : Fin 4) (inp : ProbeInput)
    (h : inp.now - s.lastUpdate i < 1) :
    (probeStep s i inp).1 = probeMid s i inp := by
  unfold probeStep
  dsimp only
  have hL := (latencyPart_same_fields
    { s with frameCounts := Function.update s.frameCounts i (s.frameCounts i + 1) }
    i inp).2.2.2.2.2
  unfold fpsPart
  rw [if_neg]
  unfold probeMid
  rw [hL]
  exact not_le.mpr h

/-- At or above the one-second threshold, the probe callback recomputes
fps, resets the counter, stamps the time and refreshes the display. -/
theorem probeStep_refresh (s : MgrState) (i : Fin 4) (inp : ProbeInput)
    (h : 1 ≤ inp.now - s.lastUpdate i) :
    (probeStep s i inp).1 =
      updateFpsDisplay (refreshState (probeMid s i inp) i inp.now) i := by
  unfold probeStep
  dsimp only
  have hL := (latencyPart_same_fields
    { s with frameCounts := Function.update s.frameCounts i (s.frameCounts i + 1) }
    i inp).2.2.2.2.2
  have hgt : (1 : ℚ) ≤ inp.now - (probeMid s i inp).lastUpdate i := by
    unfold probeMid
    rw [hL]
    exact h
  unfold fpsPart
  rw [if_pos hgt, if_pos (lt_of_lt_of_le one_pos hgt)]

theorem updateFpsDisplay_fpsValues (s : MgrState) (i : Fin 4) :
    (updateFpsDisplay s i).fpsValues = s.fpsValues := by
  unfold updateFpsDisplay
  split <;> rfl

theorem updateFpsDisplay_latencyValues (s : MgrState) (i : Fin 4) :
    (updateFpsDisplay s i).latencyValues = s.latencyValues := by
  unfold updateFpsDisplay
  split <;> rfl

theorem updateFpsDisplay_frameCounts (s : MgrState) (i : Fin 4) :
    (updateFpsDisplay s i).frameCounts = s.frameCounts := by
  unfold updateFpsDisplay
  split <;> rfl

theorem updateFpsDisplay_lastUpdate (s : MgrState) (i : Fin 4) :
    (updateFpsDisplay s i).lastUpdate = s.lastUpdate := by
  unfold updateFpsDisplay
  split <;> rfl

/-- Applying `_update_fps_display` on a branch that has an overlay rewrites that
branch's text from the visibility gate and the current metric values. -/
theorem updateFpsDisplay_overlayText_self (s : MgrState) (i : Fin 4)
    (hov : s.hasOverlay i = true) :
    (updateFpsDisplay s i).overlayText i =
      (if s.overlayVisible then
        OverlayText.formatted (s.fpsValues i) (s.latencyValues i)
       else OverlayText.empty) := by
  rw [updateFpsDisplay_eq]
  show textAfterUpdate s i i = _
  unfold textAfterUpdate displayText
  rw [if_pos ⟨rfl, hov⟩]

theorem probeMid_frameCounts (s : MgrState) (i : Fin 4) (inp : ProbeInput) :
    (probeMid s i inp).frameCounts =
      Function.update s.frameCounts i (s.frameCounts i + 1) :=
  (latencyPart_same_fields
    { s with frameCounts := Function.update s.frameCounts i (s.frameCounts i + 1) }
    i inp).2.2.2.2.1

theorem probeMid_lastUpdate (s : MgrState) (i : Fin 4) (inp : ProbeInput) :
    (probeMid s i inp).lastUpdate = s.lastUpdate :=
  (latencyPart_same_fields
    { s with frameCounts := Function.update s.frameCounts i (s.frameCounts i + 1) }
    i inp).2.2.2.2.2

theorem probeMid_same (s : MgrState) (i : Fin 4) (inp : ProbeInput) :
    (probeMid s i inp).overlayText = s.overlayText ∧
    (probeMid s i inp).hasOverlay = s.hasOverlay ∧
    (probeMid s i inp).overlayVisible = s.overlayVisible ∧
    (probeMid s i inp).fpsValues = s.fpsValues := by
  obtain ⟨hT, hH, hV, hF, hC, hL⟩ := latencyPart_same_fields
    { s with frameCounts := Function.update s.frameCounts i (s.frameCounts i + 1) } i inp
  exact ⟨hT, hH, hV, hF⟩

/-! ## Claim theorems: overlay text, latency buffer, fps update, probe return -/

/-- The manager state right after construction with all four overlays. -/
def c4StateA : MgrState := reachFrom 1920 1080 (fun _ => true) 0 []

/-- The shown-overlay state built on `c4StateA`. -/
def c4StateS : MgrState := showFpsOverlay c4StateA

/-- A probe input 0.5s after construction carrying a PTS of 5ns with the
clock at 2000000ns: a positive latency sample below the FPS refresh
threshold. -/
def c4Inp : ProbeInput := ⟨1 / 2, some (some 5), true, some 2000000, 0⟩

/-- Construction, then showing the overlay, then one probe tick 0.5s
later that records a positive clock-relative latency sample but does not
cross the 1-second FPS refresh threshold. -/
def c4StateB : MgrState :=
  reachFrom 1920 1080 (fun _ => true) 0 [Op.showOverlay, Op.probe 0 c4Inp]

/-- C4 fails on the code: (a) right after pipeline construction the
overlay-visible flag is false but branch 0's text is the placeholder
`"0.0 FPS | 0.0ms"` (the rendering of `formatted 0 0`), not the empty
string; (b) after showing the overlay, a probe tick below the refresh
threshold updates `latency_value` without rewriting the text, so the
visible text is not the format of the current metric values. -/
theorem overlay_text_claim_fails :
    (c4StateA.overlayVisible = false ∧ c4StateA.hasOverlay 0 = true ∧
      c4StateA.overlayText 0 ≠ OverlayText.empty) ∧
    (c4StateB.overlayVisible = true ∧ c4StateB.hasOverlay 0 = true ∧
      c4StateB.overlayText 0 ≠
        OverlayText.formatted (c4StateB.fpsValues 0) (c4StateB.latencyValues 0)) := by
  have h1text : c4StateS.overlayText 0 = OverlayText.formatted 0 0 := rfl
  have h1vis : c4StateS.overlayVisible = true := rfl
  have h1has : c4StateS.hasOverlay 0 = true := rfl
  have h1last : c4StateS.lastUpdate 0 = 0 := rfl
  have h1fps : c4StateS.fpsValues 0 = 0 := rfl
  have hth : c4Inp.now - c4StateS.lastUpdate 0 < 1 := by
    rw [h1last]
    show (1 : ℚ) / 2 - 0 < 1
    norm_num
  have hB : c4StateB = probeMid c4StateS 0 c4Inp :=
    probeStep_no_refresh c4StateS 0 c4Inp hth
  have hpos : (0 : Int) < 2000000 - c4Inp.baseTime - 5 := by decide
  have hbase : c4Inp.baseTime = 0 := rfl
  have hBlat : c4StateB.latencyValues 0 ≠ 0 := by
    rw [hB]
    unfold probeMid
    rw [latencyPart_push_pos _ 0 c4Inp 5 2000000 rfl rfl rfl hpos,
      pushLatency_latencyValues, Function.update_same]
    show ([((2000000 - c4Inp.baseTime - 5 : Int) : ℚ) / 1000000].sum /
      (([((2000000 - c4Inp.baseTime - 5 : Int) : ℚ) / 1000000].length : ℚ))) ≠ 0
    rw [hbase]
    simp only [List.sum_singleton, List.length_singleton, Nat.cast_one, div_one]
    norm_num
  have hBvis : c4StateB.overlayVisible = true := by
    rw [hB, (probeMid_same c4StateS 0 c4Inp).2.2.1]
    exact h1vis
  have hBhas : c4StateB.hasOverlay 0 = true := by
    rw [hB, (probeMid_same c4StateS 0 c4Inp).2.1]
    exact h1has
  have hBtext : c4StateB.overlayText 0 = OverlayText.formatted 0 0 := by
    rw [hB, (probeMid_same c4StateS 0 c4Inp).1]
    exact h1text
  have hBfps : c4StateB.fpsValues 0 = 0 := by
    rw [hB, (probeMid_same c4StateS 0 c4Inp).2.2.2]
    exact h1fps
  refine ⟨⟨rfl, rfl, by decide⟩, hBvis, hBhas, ?_⟩
  intro hcontra
  rw [hBtext, hBfps] at hcontra
  injection hcontra with hf hl
  exact hBlat hl.symm

/-- C4 (amended): at every state reachable from pipeline construction by
probe ticks, show/hide, mouse activity and timer expiry: when the
overlay-visible flag is false, every built branch's overlay text is the
empty string or still the construction-time placeholder (the rendering of
`formatted 0 0`); when the flag is true, every built branch's text is the
format string whose FPS component is the branch's current `fps_value`
(the latency component is the one captured at the last display refresh
and may lag `latency_value`). -/
theorem overlay_text_reachable_invariant (W H : Int) (has : Fin 4 → Bool)
    (t0 : ℚ) (ops : List Op) (i : Fin 4)
    (hov : (reachFrom W H has t0 ops).hasOverlay i = true) :
    ((reachFrom W H has t0 ops).overlayVisible = false →
      (reachFrom W H has t0 ops).overlayText i = OverlayText.empty ∨
      (reachFrom W H has t0 ops).overlayText i = OverlayText.formatted 0 0) ∧
    ((reachFrom W H has t0 ops).overlayVisible = true →
      ∃ l : ℚ, (reachFrom W H has t0 ops).overlayText i =
        OverlayText.formatted ((reachFrom W H has t0 ops).fpsValues i) l) :=
  overlayInv_runOps _ ops (overlayInv_construct _ has t0) i hov

/-- C4 witness: after construction followed by `hide_fps_overlay`, the
invariant instantiates concretely for branch 0. -/
theorem overlay_text_reachable_invariant_w :
    (reachFrom 1920 1080 (fun _ => true) 0 [Op.hideOverlay]).overlayText 0 =
      OverlayText.empty ∨
    (reachFrom 1920 1080 (fun _ => true) 0 [Op.hideOverlay]).overlayText 0 =
      OverlayText.formatted 0 0 :=
  (overlay_text_reachable_invariant 1920 1080 (fun _ => true) 0
    [Op.hideOverlay] 0 rfl).1 rfl

/-- C5: at every reachable state every branch's latency buffer holds at
most 10 samples and the stored latency value is the mean of the buffer;
a full buffer evicts its oldest entry first on push (FIFO); and on a
probe with a PTS, a pipeline and a clock, the clock-relative sample
`clockTime - PTS` is pushed exactly when it is strictly positive. -/
theorem latency_buffer_spec (W H : Int) (has : Fin 4 → Bool) (t0 : ℚ)
    (ops : List Op) :
    (∀ i : Fin 4,
      ((reachFrom W H has t0 ops).latencyBuf i).length ≤ 10 ∧
      ((reachFrom W H has t0 ops).latencyBuf i ≠ [] →
        (reachFrom W H has t0 ops).latencyValues i =
          ((reachFrom W H has t0 ops).latencyBuf i).sum /
            (((reachFrom W H has t0 ops).latencyBuf i).length : ℚ))) ∧
    (∀ buf : List ℚ, ∀ v : ℚ, buf.length = 10 →
      pushSample buf v = buf.tail ++ [v]) ∧
    (∀ s : MgrState, ∀ i : Fin 4, ∀ inp : ProbeInput, ∀ p ct : Int,
      inp.buffer = some (some p) → inp.pipelinePresent = true →
      inp.clock = some ct →
      (0 < ct - inp.baseTime - p →
        (probeStep s i inp).1.latencyBuf i =
          pushSample (s.latencyBuf i)
            (((ct - inp.baseTime - p : Int) : ℚ) / 1000000)) ∧
      (ct - inp.baseTime - p ≤ 0 →
        (probeStep s i inp).1.latencyBuf = s.latencyBuf)) := by
  refine ⟨?_, ?_, ?_⟩
  · have hbase : LatencyInv (createPipeline (initMgr W H) has t0) := by
      intro i
      constructor
      · show ([] : List ℚ).length ≤ 10
        simp
      · intro h
        exact absurd rfl h
    exact latencyInv_runOps _ ops hbase
  · intro buf v h
    exact pushSample_of_full buf v h
  · intro s i inp p ct hb hp hc
    constructor
    · intro hpos
      show (fpsPart (probeMid s i inp) i inp.now).latencyBuf i = _
      rw [fpsPart_latencyBuf]
      unfold probeMid
      rw [latencyPart_push_pos _ i inp p ct hb hp hc hpos,
        pushLatency_latencyBuf, Function.update_same]
    · intro hneg
      show (fpsPart (probeMid s i inp) i inp.now).latencyBuf = _
      rw [fpsPart_latencyBuf]
      unfold probeMid
      rw [latencyPart_push_nonpos _ i inp p ct hb hp hc hneg]

/-- C5 witness: pushing an 11th sample onto a full 10-entry buffer drops
the oldest sample and appends the new one. -/
theorem latency_buffer_spec_w :
    pushSample [0, 1, 2, 3, 4, 5, 6, 7, 8, 9] 10 =
      [1, 2, 3, 4, 5, 6, 7, 8, 9, 10] :=
  (latency_buffer_spec 1 1 (fun _ => true) 0 []).2.1
    [0, 1, 2, 3, 4, 5, 6, 7, 8, 9] 10 rfl

/-- C6: on a probe tick for a branch with an overlay: with at least one
second elapsed since the branch's last FPS update, `fps_value` becomes
the (incremented) frame count divided by the elapsed time, the frame
count resets to 0, the last-update stamp becomes the tick time, and the
overlay text is pushed (formatted current values when visible, empty
otherwise); with less than one second elapsed, `fps_value`, the
last-update stamp and the overlay text are untouched and the frame count
is only incremented. -/
theorem fps_recompute_step (s : MgrState) (i : Fin 4) (inp : ProbeInput)
    (hov : s.hasOverlay i = true) :
    (1 ≤ inp.now - s.lastUpdate i →
      (probeStep s i inp).1.fpsValues i =
        ((s.frameCounts i : ℚ) + 1) / (inp.now - s.lastUpdate i) ∧
      (probeStep s i inp).1.frameCounts i = 0 ∧
      (probeStep s i inp).1.lastUpdate i = inp.now ∧
      (probeStep s i inp).1.overlayText i =
        (if s.overlayVisible then
          OverlayText.formatted ((probeStep s i inp).1.fpsValues i)
            ((probeStep s i inp).1.latencyValues i)
         else OverlayText.empty)) ∧
    (inp.now - s.lastUpdate i < 1 →
      (probeStep s i inp).1.fpsValues i = s.fpsValues i ∧
      (probeStep s i inp).1.frameCounts i = s.frameCounts i + 1 ∧
      (probeStep s i inp).1.lastUpdate i = s.lastUpdate i ∧
      (probeStep s i inp).1.overlayText i = s.overlayText i) := by
  constructor
  · intro h
    rw [probeStep_refresh s i inp h]
    have hvR : (refreshState (probeMid s i inp) i inp.now).overlayVisible =
        s.overlayVisible := by
      show (probeMid s i inp).overlayVisible = _
      exact (probeMid_same s i inp).2.2.1
    have hovR : (refreshState (probeMid s i inp) i inp.now).hasOverlay i = true := by
      show (probeMid s i inp).hasOverlay i = true
      rw [(probeMid_same s i inp).2.1]
      exact hov
    have hfpsR : (refreshState (probeMid s i inp) i inp.now).fpsValues i =
        ((s.frameCounts i : ℚ) + 1) / (inp.now - s.lastUpdate i) := by
      show Function.update (probeMid s i inp).fpsValues i
        (((probeMid s i inp).frameCounts i : ℚ) /
          (inp.now - (probeMid s i inp).lastUpdate i)) i = _
      rw [Function.update_same, probeMid_frameCounts, probeMid_lastUpdate,
        Function.update_same]
      push_cast
      ring
    refine ⟨?_, ?_, ?_, ?_⟩
    · rw [updateFpsDisplay_fpsValues]
      exact hfpsR
    · rw [updateFpsDisplay_frameCounts]
      show Function.update (probeMid s i inp).frameCounts i 0 i = 0
      rw [Function.update_same]
    · rw [updateFpsDisplay_lastUpdate]
      show Function.update (probeMid s i inp).lastUpdate i inp.now i = inp.now
      rw [Function.update_same]
    · rw [updateFpsDisplay_overlayText_self _ i hovR, hvR,
        updateFpsDisplay_fpsValues, updateFpsDisplay_latencyValues]
  · intro h
    rw [probeStep_no_refresh s i inp h]
    refine ⟨?_, ?_, ?_, ?_⟩
    · rw [(probeMid_same s i inp).2.2.2]
    · rw [probeMid_frameCounts, Function.update_same]
    · rw [probeMid_lastUpdate]
    · rw [(probeMid_same s i inp).1]

/-- C6 witness: on a freshly built manager, a probe tick two seconds
after construction crosses the threshold and resets branch 0's frame
count. -/
theorem fps_recompute_step_w :
    (probeStep (reachFrom 1 1 (fun _ => true) 0 [])
        0 ⟨2, none, true, none, 0⟩).1.frameCounts 0 = 0 :=
  ((fps_recompute_step (reachFrom 1 1 (fun _ => true) 0 [])
      0 ⟨2, none, true, none, 0⟩ rfl).1
    (by
      rw [show (reachFrom 1 1 (fun _ => true) 0 []).lastUpdate 0 = 0 from rfl]
      norm_num)).2.1

/-- C10: the probe callback returns `Gst.PadProbeReturn.OK` on every
input, so the instrumentation never drops a frame or aborts the stream. -/
theorem probe_callback_returns_ok (s : MgrState) (i : Fin 4) (inp : ProbeInput) :
    (probeStep s i inp).2 = GstPadProbeReturn.ok := rfl

/-! ## View cycling -/

theorem length_setTiledView (W H : Int) (ts : List Tile) :
    (setTiledView W H ts).length = ts.length :=
  mapIdxFrom_length _ 0 ts

theorem length_setSingleCameraView (k : Nat) (ow oh : Int) (ts : List Tile) :
    (setSingleCameraView k ow oh ts).length = ts.length :=
  mapIdxFrom_length _ 0 ts

/-- Embedding of `GStreamerManager.cycle_view`: with no compositor sink pads, warn
(the Bool component records the emitted warning) and change nothing;
otherwise advance `current_view`, wrapping from 3 back to -1, and apply
the tiled layout (for -1) or the single-camera layout (for 0..3). -/
def cycleView (s : MgrState) : MgrState × Bool :=
  if s.pads = [] then (s, true)
  else
    ({ s with
        currentView := if 3 < s.currentView + 1 then -1 else s.currentView + 1,
        pads :=
          if (if 3 < s.currentView + 1 then -1 else s.currentView + 1) = -1 then
            setTiledView s.videoWidth s.videoHeight s.pads
          else
            setSingleCameraView
              (if 3 < s.currentView + 1 then -1 else s.currentView + 1).toNat
              (2 * s.videoWidth) (2 * s.videoHeight) s.pads },
      false)

/-- The state component of `cycle_view`. -/
def cycleViewSt (s : MgrState) : MgrState := (cycleView s).1

theorem cycleView_step (t : MgrState) (ht : t.pads ≠ []) :
    (cycleViewSt t).currentView =
      (if 3 < t.currentView + 1 then -1 else t.currentView + 1) ∧
    (cycleViewSt t).pads =
      (if (cycleViewSt t).currentView = -1 then
        setTiledView t.videoWidth t.videoHeight t.pads
      else
        setSingleCameraView (cycleViewSt t).currentView.toNat
          (2 * t.videoWidth) (2 * t.videoHeight) t.pads) ∧
    (cycleViewSt t).videoWidth = t.videoWidth ∧
    (cycleViewSt t).videoHeight = t.videoHeight ∧
    (cycleViewSt t).pads ≠ [] := by
  unfold cycleViewSt cycleView
  rw [if_neg ht]
  refine ⟨rfl, rfl, rfl, rfl, ?_⟩
  show (if (if 3 < t.currentView + 1 then -1 else t.currentView + 1) = -1 then
    setTiledView t.videoWidth t.videoHeight t.pads
  else
    setSingleCameraView (if 3 < t.currentView + 1 then -1 else t.currentView + 1).toNat
      (2 * t.videoWidth) (2 * t.videoHeight) t.pads) ≠ []
  intro hnil
  apply ht
  have hlen := congrArg List.length hnil
  split at hlen
  · rw [if_pos rfl, length_setTiledView] at hlen
    exact List.length_eq_zero.mp hlen
  · split at hlen
    · rw [length_setTiledView] at hlen
      exact List.length_eq_zero.mp hlen
    · rw [length_setSingleCameraView] at hlen
      exact List.length_eq_zero.mp hlen

/-- C7: starting from the tiled view with at least one connected branch,
the `n`-th `cycle_view` call leaves `current_view` at `n % 5 - 1`, i.e.
the views are visited in the order TILED, CAMERA_0, CAMERA_1, CAMERA_2,
CAMERA_3 and back to TILED, and each call applies the layout (tiled at
-1, single camera otherwise) corresponding to the view it switches to. -/
theorem cycle_view_order (s : MgrState) (hcv : s.currentView = -1)
    (hp : s.pads ≠ []) (n : Nat) :
    (cycleViewSt^[n] s).currentView = (n : Int) % 5 - 1 ∧
    (cycleViewSt^[n + 1] s).pads =
      (if (cycleViewSt^[n + 1] s).currentView = -1 then
        setTiledView s.videoWidth s.videoHeight (cycleViewSt^[n] s).pads
      else
        setSingleCameraView (cycleViewSt^[n + 1] s).currentView.toNat
          (2 * s.videoWidth) (2 * s.videoHeight) (cycleViewSt^[n] s).pads) := by
  have aux : ∀ m : Nat, (cycleViewSt^[m] s).currentView = (m : Int) % 5 - 1 ∧
      (cycleViewSt^[m] s).pads ≠ [] ∧
      (cycleViewSt^[m] s).videoWidth = s.videoWidth ∧
      (cycleViewSt^[m] s).videoHeight = s.videoHeight := by
    intro m
    induction m with
    | zero =>
      refine ⟨?_, hp, rfl, rfl⟩
      rw [Function.iterate_zero_apply, hcv]
      decide
    | succ k ih =>
      obtain ⟨hcv2, hp2, hw2, hh2⟩ := ih
      have hstep := cycleView_step _ hp2
      rw [Function.iterate_succ_apply']
      refine ⟨?_, hstep.2.2.2.2, ?_, ?_⟩
      · rw [hstep.1, hcv2]
        push_cast
        split <;> omega
      · rw [hstep.2.2.1, hw2]
      · rw [hstep.2.2.2.1, hh2]
  obtain ⟨h1, hp1, hw1, hh1⟩ := aux n
  have hstep := cycleView_step _ hp1
  refine ⟨h1, ?_⟩
  rw [Function.iterate_succ_apply', hstep.2.1, hw1, hh1]

/-- C7 witness: on a freshly built manager, the first `cycle_view` call
lands on CAMERA_0 (`current_view = 0 = 1 % 5 - 1`). -/
theorem cycle_view_order_w :
    (cycleViewSt^[1] (reachFrom 1920 1080 (fun _ => true) 0 [])).currentView =
      (1 : Int) % 5 - 1 :=
  (cycle_view_order (reachFrom 1920 1080 (fun _ => true) 0 []) rfl
    (by decide) 1).1

/-- C8: with no compositor sink pads (nothing built), `cycle_view` emits
the warning (the error report) and returns with the entire manager state
unchanged. -/
theorem cycle_view_unbuilt (s : MgrState) (h : s.pads = []) :
    cycleView s = (s, true) := by
  unfold cycleView
  rw [if_pos h]

/-- C8 witness: on the freshly initialized manager (no pipeline built),
`cycle_view` warns and changes nothing. -/
theorem cycle_view_unbuilt_w :
    cycleView (initMgr 1920 1080) = (initMgr 1920 1080, true) :=
  cycle_view_unbuilt (initMgr 1920 1080) rfl

/-! ## Pipeline start and surface-handle attachment -/

/-- The attachment mechanisms `_set_window_id_after_start` can try, in
order: the `GstVideo.VideoOverlay` interface cast, a direct
`set_window_handle` method, and setting one of the candidate window
properties by name. -/
inductive AttachMech where
  | overlayIface
  | directMethod
  | prop (name : String)
deriving Repr, DecidableEq

/-- Observable actions of `start_pipeline`, in emission order. -/
inductive StartAction where
  | setStatePlaying
  | attach (m : AttachMech)
deriving Repr, DecidableEq

/-- The environment a `start_pipeline` call runs against: whether a
pipeline exists, whether the PLAYING state change reports FAILURE,
the stored window id, whether the sink element is found by name, and
which attachment mechanisms succeed. -/
structure StartEnv where
  pipelinePresent : Bool
  stateChangeFailure : Bool
  windowId : Option Int
  sinkFound : Bool
  overlayCastOk : Bool
  directOk : Bool
  propOk : String → Bool

/-- The fixed candidate list of window property names. -/
def windowProperties : List String := ["window-id", "xid", "xwindow-id", "window"]

/-- Probe the property names in order, stopping at the first success
(`for prop_name in window_properties: try ... return; except ... continue`). -/
def tryProps (env : StartEnv) : List String → List AttachMech × Bool
  | [] => ([], false)
  | p :: ps =>
    if env.propOk p then ([AttachMech.prop p], true)
    else
      (AttachMech.prop p :: (tryProps env ps).1, (tryProps env ps).2)

/-- Embedding of `GStreamerManager._set_window_id_after_start`: find the sink, then
try the overlay interface, then the direct method, then the property
names, returning the attempts made and whether one succeeded. -/
def setWindowIdAfterStart (env : StartEnv) : List AttachMech × Bool :=
  if env.sinkFound = false then ([], false)
  else if env.overlayCastOk then ([AttachMech.overlayIface], true)
  else if env.directOk then ([AttachMech.overlayIface, AttachMech.directMethod], true)
  else
    (AttachMech.overlayIface :: AttachMech.directMethod ::
        (tryProps env windowProperties).1,
      (tryProps env windowProperties).2)

/-- Embedding of `GStreamerManager.start_pipeline`: fail with no pipeline; set the
graph PLAYING and fail if the state change reports FAILURE; then, when a
window id is stored, attempt surface attachment (whose outcome does not
affect the return value); return success. -/
def startPipeline (env : StartEnv) : Bool × List StartAction :=
  if env.pipelinePresent = false then (false, [])
  else if env.stateChangeFailure then (false, [StartAction.setStatePlaying])
  else
    match env.windowId with
    | some _ =>
      (true, StartAction.setStatePlaying ::
        ((setWindowIdAfterStart env).1.map StartAction.attach))
    | none => (true, [StartAction.setStatePlaying])

/-- All attachment mechanisms in the order the code tries them. -/
def mechList : List AttachMech :=
  AttachMech.overlayIface :: AttachMech.directMethod ::
    windowProperties.map AttachMech.prop

/-- Whether a given mechanism succeeds in the given environment. -/
def mechOk (env : StartEnv) : AttachMech → Bool
  | AttachMech.overlayIface => env.overlayCastOk
  | AttachMech.directMethod => env.directOk
  | AttachMech.prop p => env.propOk p

/-- C9: (1) every attachment attempt comes after the PLAYING transition
(the trace is the state change followed only by attach actions);
(2) with the sink found, the attempts are exactly the in-order prefix of
the mechanism list up to and including the first success (all of them
when none succeeds), and attachment succeeds iff some mechanism does;
(3) when every mechanism fails, `start_pipeline` still returns success;
(4) `start_pipeline` returns failure exactly when no pipeline exists or
the state change reports failure. -/
theorem start_pipeline_spec (env : StartEnv) :
    ((startPipeline env).2 = [] ∨
      ∃ ms : List AttachMech,
        (startPipeline env).2 =
          StartAction.setStatePlaying :: ms.map StartAction.attach) ∧
    (env.sinkFound = true →
      (setWindowIdAfterStart env).1 =
        mechList.takeWhile (fun m => !(mechOk env m)) ++
          (mechList.dropWhile (fun m => !(mechOk env m))).take 1 ∧
      ((setWindowIdAfterStart env).2 = true ↔
        mechList.any (mechOk env) = true)) ∧
    (env.pipelinePresent = true → env.stateChangeFailure = false →
      (∀ m : AttachMech, mechOk env m = false) →
      (startPipeline env).1 = true) ∧
    ((startPipeline env).1 = false ↔
      (env.pipelinePresent = false ∨ env.stateChangeFailure = true)) := by
  refine ⟨?_, ?_, ?_, ?_⟩
  · cases hpp : env.pipelinePresent with
    | false => left; simp [startPipeline, hpp]
    | true =>
      cases hsf : env.stateChangeFailure with
      | true => right; exact ⟨[], by simp [startPipeline, hpp, hsf]⟩
      | false =>
        cases hw : env.windowId with
        | none => right; exact ⟨[], by simp [startPipeline, hpp, hsf, hw]⟩
        | some w =>
          right
          exact ⟨(setWindowIdAfterStart env).1, by simp [startPipeline, hpp, hsf, hw]⟩
  · intro hs
    cases h1 : env.overlayCastOk with
    | true =>
      constructor <;>
        simp [setWindowIdAfterStart, hs, h1, mechList, mechOk, windowProperties]
    | false =>
      cases h2 : env.directOk with
      | true =>
        constructor <;>
          simp [setWindowIdAfterStart, hs, h1, h2, mechList, mechOk, windowProperties]
      | false =>
        cases h3 : env.propOk "window-id" <;>
          cases h4 : env.propOk "xid" <;>
            cases h5 : env.propOk "xwindow-id" <;>
              cases h6 : env.propOk "window" <;>
                exact ⟨by simp [setWindowIdAfterStart, hs, h1, h2, h3, h4, h5, h6,
                    tryProps, mechList, mechOk, windowProperties],
                  by simp [setWindowIdAfterStart, hs, h1, h2, h3, h4, h5, h6,
                    tryProps, mechList, mechOk, windowProperties]⟩
  · intro h1 h2 _
    cases hw : env.windowId <;> simp [startPipeline, h1, h2, hw]
  · cases hpp : env.pipelinePresent <;>
      cases hsf : env.stateChangeFailure <;>
        cases hw : env.windowId <;> simp [startPipeline, hpp, hsf, hw]

/-- C9 witness: in an environment where the overlay cast fails but the
direct method succeeds, the attempts are exactly overlay-interface then
direct-method, in that order. -/
theorem start_pipeline_spec_w :
    (setWindowIdAfterStart
      ⟨true, false, some 99, true, false, true, fun _ => false⟩).1 =
      [AttachMech.overlayIface, AttachMech.directMethod] :=
  ((start_pipeline_spec
      ⟨true, false, some 99, true, false, true, fun _ => false⟩).2.1 rfl).1

end X11Viewer
